import Mathlib

/-!
Shallow embedding of the `rdna` program (src/main.rs), a terminal
"digital rain" animation over nucleotide characters.

Modelling conventions:
- Machine integers (`u16`, `i16`) are modelled as `Nat` / `Int`; all the
  quantities involved (terminal sizes, trail indices, vertical positions)
  stay far below the 16-bit overflow boundaries in the reachable states the
  claims describe, so no wrap-around arithmetic is introduced.
- The `f32` fade arithmetic of `Column::draw` is modelled exactly over `ℚ`
  (the fade values in question, `1 - i/trail_len` for small integers, are
  represented exactly, and the `as u8` cast of a non-negative product is
  truncation, i.e. `floor`).
- `rand::thread_rng().gen_range(lo..hi)` is modelled by a deterministic
  function of an explicit seed that always returns a value in `[lo, hi)`,
  the sole contract the program relies on; theorems quantify over all seeds.
- Fallible indexing (`self.chars[row as usize]`, which panics when out of
  bounds) is modelled with `Option`: `none` represents the panic.
- Terminal I/O results (`io::Result`) are modelled as `Except Nat Unit`
  with `Nat` standing in for the opaque `io::Error`.
-/

namespace RDna

/-- `const NUCLEOTIDES: [char; 5] = ['A', 'T', 'C', 'G', 'U'];` -/
def NUCLEOTIDES : List Char := ['A', 'T', 'C', 'G', 'U']

/-- `fn nucleotide_color(ch: char) -> (u8, u8, u8)`: the fixed palette.
The Rust `match` over `char` literals is embedded as the equivalent
chain of equality tests, with the same wildcard default. -/
def nucleotide_color (ch : Char) : Nat × Nat × Nat :=
  if ch = 'A' then (0, 200, 0)
  else if ch = 'T' then (200, 0, 0)
  else if ch = 'C' then (0, 100, 255)
  else if ch = 'G' then (220, 220, 0)
  else if ch = 'U' then (153, 51, 255)
  else (0, 200, 0)

/-- Model of `rng.gen_range(lo..hi)` on signed integers: for `lo < hi` the
result lies in `[lo, hi)` for every seed `s` (Int `%` is Euclidean). -/
def genRangeInt (lo hi : Int) (s : Nat) : Int := lo + (s : Int) % (hi - lo)

/-- Model of `rng.gen_range(lo..hi)` on unsigned integers. -/
def genRangeNat (lo hi : Nat) (s : Nat) : Nat := lo + s % (hi - lo)

/-- `struct Column` of src/main.rs (field names kept; `u16`/`i16` as
`Nat`/`Int`, `Vec<char>` as `List Char`). -/
structure Column where
  x : Nat
  y : Int
  speed : Nat
  trail_len : Int
  chars : List Char
deriving Repr, DecidableEq

/-- `Column::new(x, height)`. Randomness is supplied by seeds: `sy` for the
initial `y`, `sspeed` for `speed`, and `schars k` for the `k`-th character
(`(0..height).map(|_| NUCLEOTIDES[rng.gen_range(0..NUCLEOTIDES.len())])`). -/
def Column.new (x : Nat) (height : Nat) (sy sspeed : Nat) (schars : Nat → Nat) : Column :=
  let trail_len : Int := ((max (height / 3) 4 : Nat) : Int)
  { x := x
    y := genRangeInt (-trail_len) 0 sy
    speed := genRangeNat 1 2 sspeed
    trail_len := trail_len
    chars := (List.range height).map
      (fun k => NUCLEOTIDES.getD (genRangeNat 0 NUCLEOTIDES.length (schars k)) ' ') }

/-- The fade factor of `Column::draw`:
`let fade = 1.0 - (i as f32 / self.trail_len as f32);` (exact over `ℚ`). -/
def fadeFactor (i trail_len : Int) : ℚ := 1 - (i : ℚ) / (trail_len : ℚ)

/-- `(c as f32 * fade) as u8` for a channel `c ≤ 255` and `fade ∈ [0,1]`:
the product is non-negative and below 256, so the cast truncates (floor). -/
def scaleChannel (c : Nat) (fade : ℚ) : Nat := ((c : ℚ) * fade).floor.toNat

/-- The `match i` computing the colour of trail index `i` in `Column::draw`:
the head (`i == 0`) is bright white, the body is the nucleotide colour of
the character dimmed by `fadeFactor`. -/
def trailColor (i trail_len : Int) (ch : Char) : Nat × Nat × Nat :=
  if i = 0 then (255, 255, 255)
  else
    let rgb := nucleotide_color ch
    (scaleChannel rgb.1 (fadeFactor i trail_len),
     scaleChannel rgb.2.1 (fadeFactor i trail_len),
     scaleChannel rgb.2.2 (fadeFactor i trail_len))

/-- One terminal write performed by `Column::draw`: move to `(x, row)`,
optionally set a foreground colour, print `ch`.  The erase write at the end
of `draw` has no `SetForegroundColor`, hence `color : Option _`. -/
structure DrawOp where
  x : Nat
  row : Int
  ch : Char
  color : Option (Nat × Nat × Nat)
deriving Repr, DecidableEq

/-- The body of one iteration of the `for i in 0..=self.trail_len` loop of
`Column::draw`: rows outside `[0, height)` are skipped (`continue`), and
`self.chars[row as usize]` is fallible indexing (`none` = panic). -/
def drawCell (c : Column) (height : Nat) (i : Int) : Option (List DrawOp) :=
  let row := c.y - i
  if row < 0 ∨ (height : Int) ≤ row then some []
  else
    match c.chars[row.toNat]? with
    | none => none
    | some ch => some [⟨c.x, row, ch, some (trailColor i c.trail_len ch)⟩]

/-- The Rust inclusive range `0..=t` on a signed bound (empty when `t < 0`). -/
def rangeIncl (t : Int) : List Int :=
  if t < 0 then [] else (List.range (t.toNat + 1)).map (fun k => (k : Int))

/-- Runs `drawCell` over the given trail indices in order, aborting at the
first panic, and concatenates the emitted writes. -/
def collectCells (c : Column) (height : Nat) : List Int → Option (List DrawOp)
  | [] => some []
  | i :: is => do
    let ops ← drawCell c height i
    let rest ← collectCells c height is
    pure (ops ++ rest)

/-- `Column::draw(&self, stdout, height)`: the trail loop followed by the
erase of the cell one row beyond the tail (`erase_row = y - trail_len - 1`,
written only when inside `[0, height)`).  The result is the ordered list of
terminal writes; `none` models an out-of-bounds indexing panic. -/
def Column.draw (c : Column) (height : Nat) : Option (List DrawOp) := do
  let trail ← collectCells c height (rangeIncl c.trail_len)
  let erase_row := c.y - c.trail_len - 1
  if 0 ≤ erase_row ∧ erase_row < (height : Int) then
    pure (trail ++ [⟨c.x, erase_row, ' ', none⟩])
  else
    pure trail

/-- `Column::update(&mut self, height)`: advance `y` by `speed`; when the
tail has fully exited the bottom (`y - trail_len > height`), reset `y` to a
random value in `[-trail_len, 0)` and regenerate every character from
`NUCLEOTIDES[rng.gen_range(0..4)]`.  Seeds: `sy` for the new `y`, `schars k`
for the `k`-th regenerated character. -/
def Column.update (c : Column) (height : Nat) (sy : Nat) (schars : Nat → Nat) : Column :=
  let y' := c.y + (c.speed : Int)
  if y' - c.trail_len > (height : Int) then
    { c with
      y := genRangeInt (-c.trail_len) 0 sy
      chars := (List.range c.chars.length).map
        (fun k => NUCLEOTIDES.getD (genRangeNat 0 4 (schars k)) ' ') }
  else
    { c with y := y' }

/-- The key codes `run` compares against: `KeyCode::Char(c)`, `KeyCode::Esc`,
and a stand-in for every other key code variant. -/
inductive KeyCode where
  | char (c : Char)
  | esc
  | otherKey
deriving Repr, DecidableEq

/-- The crossterm events relevant to `run`: `Event::Key(key)` (only the key
code matters to the program) and a stand-in for every other event kind. -/
inductive TermEvent where
  | key (code : KeyCode)
  | other
deriving Repr, DecidableEq

/-- Outcome of `event::poll(Duration::from_millis(60))` followed by
`event::read()`: either the timeout elapsed (poll returned false) or an
event was read. -/
inductive PollOutcome where
  | timeout
  | event (e : TermEvent)
deriving Repr, DecidableEq

/-- `key.code == KeyCode::Char('q') || key.code == KeyCode::Esc`. -/
def isQuitKey (k : KeyCode) : Bool :=
  k == KeyCode.char 'q' || k == KeyCode.esc

/-- The observable per-frame actions of the `run` loop body: drawing column
`i`, updating column `i` (columns in creation order), and the single
`stdout.flush()` at the end of the frame. -/
inductive FrameAction where
  | draw (i : Nat)
  | update (i : Nat)
  | flush
deriving Repr, DecidableEq

/-- `for col in &mut columns { col.draw(..)?; col.update(height); }` over
`n` columns in creation order. -/
def drawUpdates (n : Nat) : List FrameAction :=
  List.flatten ((List.range n).map (fun i => [FrameAction.draw i, FrameAction.update i]))

/-- The non-quitting frame body of `run`: draw+update every column, then
flush once. -/
def frameBody (n : Nat) : List FrameAction :=
  drawUpdates n ++ [FrameAction.flush]

/-- One iteration of the `run` loop over `n` columns, as a function of the
poll outcome: returns whether the loop `break`s this frame, and the list of
actions performed this frame.  A quit key (`q`/`Esc`) breaks before any
draw/update; every other outcome falls through to the frame body. -/
def runFrame (p : PollOutcome) (n : Nat) : Bool × List FrameAction :=
  match p with
  | PollOutcome.timeout => (false, frameBody n)
  | PollOutcome.event (TermEvent.key k) =>
    if isQuitKey k then (true, []) else (false, frameBody n)
  | PollOutcome.event TermEvent.other => (false, frameBody n)

/-- The column x-offsets created by `run`:
`(0..width).step_by(2)`, i.e. `0, 2, 4, …` strictly below `width`. -/
def columnXs (width : Nat) : List Nat :=
  (List.range ((width + 1) / 2)).map (fun i => 2 * i)

/-- The top-level functions `main` traces through. -/
inductive MainAction where
  | setupTerminal
  | runLoop
  | cleanupTerminal
deriving Repr, DecidableEq

/-- `fn main()` of src/main.rs, as a function of the results of its three
steps: `setup_terminal(&mut stdout)?;` (early return on error, before the
loop or cleanup ever run), `let result = run(&mut stdout);` (result
captured), `cleanup_terminal(&mut stdout)?;` (early return of the cleanup
error), then `result`.  Returns the trace of executed steps and the
process outcome; `Nat` stands in for the opaque `io::Error`. -/
def main_trace (setupRes runRes cleanupRes : Except Nat Unit) :
    List MainAction × Except Nat Unit :=
  match setupRes with
  | Except.error e => ([MainAction.setupTerminal], Except.error e)
  | Except.ok _ =>
    match cleanupRes with
    | Except.error e =>
      ([MainAction.setupTerminal, MainAction.runLoop, MainAction.cleanupTerminal],
       Except.error e)
    | Except.ok _ =>
      ([MainAction.setupTerminal, MainAction.runLoop, MainAction.cleanupTerminal],
       runRes)

/-- The process outcome of `fn main()`. -/
def main_model (setupRes runRes cleanupRes : Except Nat Unit) : Except Nat Unit :=
  (main_trace setupRes runRes cleanupRes).2

/-! ## Theorems -/

/-- Claim C6 (confirmed): for every column constructed with any terminal
height (including heights below 12), `trail_len` equals
`max (height / 3) 4`, hence `trail_len ≥ 4` at construction, and every
`update` leaves `trail_len` unchanged (`draw` takes the column immutably:
it is a pure function of the column in this model). -/
theorem claim_C6 (x height sy sspeed : Nat) (schars : Nat → Nat) :
    (Column.new x height sy sspeed schars).trail_len = ((max (height / 3) 4 : Nat) : Int) ∧
    4 ≤ (Column.new x height sy sspeed schars).trail_len ∧
    (∀ (c : Column) (h sy' : Nat) (sc : Nat → Nat),
      (Column.update c h sy' sc).trail_len = c.trail_len) := by
  refine ⟨rfl, ?_, ?_⟩
  · show (4 : Int) ≤ ((max (height / 3) 4 : Nat) : Int)
    exact_mod_cast Nat.le_max_right (height / 3) 4
  · intro c h sy' sc
    by_cases hc : c.y + (c.speed : Int) - c.trail_len > (h : Int) <;>
      simp [Column.update, hc]

/-- Claim C8 (confirmed): the Scene Driver creates columns exactly at the
even x-offsets `0, 2, 4, …` strictly below the terminal width; the number
of columns is `⌈width / 2⌉ = (width + 1) / 2` and no two columns share an
x position. -/
theorem claim_C8 (width : Nat) :
    (columnXs width).length = (width + 1) / 2 ∧
    (∀ x ∈ columnXs width, x % 2 = 0 ∧ x < width) ∧
    (columnXs width).Nodup ∧
    (∀ x : Nat, x < width → x % 2 = 0 → x ∈ columnXs width) := by
  refine ⟨by simp [columnXs], ?_, ?_, ?_⟩
  · intro x hx
    simp only [columnXs, List.mem_map, List.mem_range] at hx
    obtain ⟨i, hi, rfl⟩ := hx
    exact ⟨by omega, by omega⟩
  · exact List.Nodup.map (fun a b hab => by omega) (List.nodup_range _)
  · intro x hxw hx2
    simp only [columnXs, List.mem_map, List.mem_range]
    exact ⟨x / 2, by omega, by omega⟩

/-- Witness for C8 at width 5: three columns, and the even offset 4 is
among them. -/
theorem claim_C8_witness : (columnXs 5).length = 3 ∧ 4 ∈ columnXs 5 :=
  ⟨(claim_C8 5).1, (claim_C8 5).2.2.2 4 (by decide) (by decide)⟩

/-- Claim C9 (confirmed): the head row (`i = 0`) is rendered full-intensity
white `(255,255,255)` whatever character occupies it; rows with `i ≠ 0`
use the character's base colour under the fixed mapping A→green, T→red,
C→blue, G→yellow, U→purple, default green, dimmed by the fade factor. -/
theorem claim_C9 :
    (∀ (t : Int) (ch : Char), trailColor 0 t ch = (255, 255, 255)) ∧
    (∀ (i t : Int) (ch : Char), i ≠ 0 →
      trailColor i t ch =
        (scaleChannel (nucleotide_color ch).1 (fadeFactor i t),
         scaleChannel (nucleotide_color ch).2.1 (fadeFactor i t),
         scaleChannel (nucleotide_color ch).2.2 (fadeFactor i t))) ∧
    nucleotide_color 'A' = (0, 200, 0) ∧
    nucleotide_color 'T' = (200, 0, 0) ∧
    nucleotide_color 'C' = (0, 100, 255) ∧
    nucleotide_color 'G' = (220, 220, 0) ∧
    nucleotide_color 'U' = (153, 51, 255) ∧
    (∀ ch : Char, ch ∉ NUCLEOTIDES → nucleotide_color ch = (0, 200, 0)) := by
  refine ⟨?_, ?_, by decide, by decide, by decide, by decide, by decide, ?_⟩
  · intro t ch
    simp [trailColor]
  · intro i t ch hi
    simp [trailColor, hi]
  · intro ch h
    simp only [NUCLEOTIDES, List.mem_cons, List.not_mem_nil, or_false, not_or] at h
    obtain ⟨h1, h2, h3, h4, h5⟩ := h
    simp [nucleotide_color, h1, h2, h3, h4, h5]

/-- Witness for C9: the head over an off-alphabet character is white, and
that character's base colour defaults to green. -/
theorem claim_C9_witness :
    trailColor 0 7 'Z' = (255, 255, 255) ∧ nucleotide_color 'Z' = (0, 200, 0) :=
  ⟨claim_C9.1 7 'Z', claim_C9.2.2.2.2.2.2.2 'Z' (by decide)⟩

/-- Counterexample for C2: with setup and the run loop both succeeding but
`cleanup_terminal` failing with error 7, `main` returns the cleanup error,
not the run loop's result, because cleanup is invoked with `?`. -/
theorem claim_C2_counterexample :
    main_model (Except.ok ()) (Except.ok ()) (Except.error 7) = Except.error 7 ∧
    (Except.error 7 : Except Nat Unit) ≠ Except.ok () :=
  ⟨rfl, fun h => Except.noConfusion h⟩

/-- Claim C2 (corrected): when setup succeeds, the process outcome equals
the run loop's result provided terminal cleanup also succeeds; when
cleanup fails, its error replaces the run result as the process outcome. -/
theorem claim_C2_amended (runRes : Except Nat Unit) :
    main_model (Except.ok ()) runRes (Except.ok ()) = runRes ∧
    (∀ e : Nat, main_model (Except.ok ()) runRes (Except.error e) = Except.error e) :=
  ⟨rfl, fun _ => rfl⟩

/-- Counterexample for C3: when `setup_terminal` fails (error 3), `main`
returns early through `?` and `cleanup_terminal` never runs — restoration
runs zero times, not once. -/
theorem claim_C3_counterexample :
    (main_trace (Except.error 3) (Except.ok ()) (Except.ok ())).1.count
      MainAction.cleanupTerminal = 0 ∧ (0 : Nat) ≠ 1 :=
  ⟨rfl, by decide⟩

/-- Claim C3 (corrected): terminal restoration runs exactly once per
execution whenever setup succeeds — whether the loop exits cleanly via a
quit key or aborts with a propagated I/O error, and whatever cleanup's own
result is — but it does not run at all when terminal setup itself fails
(main returns before reaching it). -/
theorem claim_C3_amended :
    (∀ runRes cleanupRes : Except Nat Unit,
      (main_trace (Except.ok ()) runRes cleanupRes).1.count MainAction.cleanupTerminal = 1) ∧
    (∀ (e : Nat) (runRes cleanupRes : Except Nat Unit),
      (main_trace (Except.error e) runRes cleanupRes).1.count MainAction.cleanupTerminal = 0) := by
  constructor
  · intro runRes cleanupRes
    cases cleanupRes <;> rfl
  · intro e runRes cleanupRes
    rfl

/-- Counterexample for C1: at the minimum trail length 4 (attained e.g. by
a column built for height 12), the fade factor at the last trail row
`i = trail_len` is `1 - 4/4 = 0`, not `1/trail_len = 1/4`: the last trail
row is drawn fully black, contradicting "never fully zero". -/
theorem claim_C1_counterexample :
    (Column.new 0 12 0 0 (fun _ => 0)).trail_len = 4 ∧
    fadeFactor 4 4 = 0 ∧ (1 / 4 : ℚ) ≠ 0 := by
  refine ⟨rfl, ?_, by norm_num⟩
  norm_num [fadeFactor]

/-- Claim C1 (corrected): for `i > 0` the fade factor is
`1 - i / trail_len`; it is strictly positive for `1 ≤ i < trail_len`,
strictly decreases as `i` increases, and at the last trail row
`i = trail_len` it equals exactly 0, so that row is rendered black
`(0,0,0)` whatever character occupies it. -/
theorem claim_C1_amended (L : Int) (hL : 0 < L) :
    fadeFactor L L = 0 ∧
    (∀ i : Int, 1 ≤ i → i < L → 0 < fadeFactor i L) ∧
    (∀ i j : Int, 1 ≤ i → i < j → j ≤ L → fadeFactor j L < fadeFactor i L) ∧
    (∀ ch : Char, trailColor L L ch = (0, 0, 0)) := by
  have hLq : (0 : ℚ) < (L : ℚ) := by exact_mod_cast hL
  have hLne : (L : ℚ) ≠ 0 := ne_of_gt hLq
  have hzero : fadeFactor L L = 0 := by
    unfold fadeFactor
    rw [div_self hLne]
    ring
  refine ⟨hzero, ?_, ?_, ?_⟩
  · intro i h1 hiL
    have : ((i : ℚ)) / (L : ℚ) < 1 := (div_lt_one hLq).mpr (by exact_mod_cast hiL)
    unfold fadeFactor
    linarith
  · intro i j h1 hij hjL
    have hijq : (i : ℚ) < (j : ℚ) := by exact_mod_cast hij
    have : ((i : ℚ)) / (L : ℚ) < ((j : ℚ)) / (L : ℚ) := by gcongr
    unfold fadeFactor
    linarith
  · intro ch
    have hLz : L ≠ 0 := by omega
    simp only [trailColor, hLz, if_false]
    simp [scaleChannel, hzero]
    decide

/-- Witness for C1 at trail length 4 and indices 2 < 3: the fade strictly
decreases and is positive below the last row. -/
theorem claim_C1_amended_witness :
    fadeFactor 4 4 = 0 ∧ 0 < fadeFactor 2 4 ∧ fadeFactor 3 4 < fadeFactor 2 4 :=
  ⟨(claim_C1_amended 4 (by norm_num)).1,
   (claim_C1_amended 4 (by norm_num)).2.1 2 (by norm_num) (by norm_num),
   (claim_C1_amended 4 (by norm_num)).2.2.1 2 3 (by norm_num) (by norm_num) (by norm_num)⟩

/-- Claim C10 (confirmed): `update` never changes `x`, `speed`,
`trail_len`, or the length of `chars`; when the wrap condition (on the
advanced `y`) does not hold it changes only `y` (to `y + speed`), leaving
`chars` untouched; when it holds it changes only `y` and the contents of
`chars`.  (`draw` takes the column immutably: it is a pure function of
the column in this model and changes nothing.) -/
theorem claim_C10 (c : Column) (height sy : Nat) (schars : Nat → Nat) :
    ((c.update height sy schars).x = c.x ∧
     (c.update height sy schars).speed = c.speed ∧
     (c.update height sy schars).trail_len = c.trail_len ∧
     (c.update height sy schars).chars.length = c.chars.length) ∧
    (¬ ((height : Int) < c.y + (c.speed : Int) - c.trail_len) →
      (c.update height sy schars).chars = c.chars ∧
      (c.update height sy schars).y = c.y + (c.speed : Int)) := by
  by_cases hc : (height : Int) < c.y + (c.speed : Int) - c.trail_len
  · constructor
    · refine ⟨?_, ?_, ?_, ?_⟩ <;> simp [Column.update, gt_iff_lt, hc]
    · intro h
      exact absurd hc h
  · constructor
    · refine ⟨?_, ?_, ?_, ?_⟩ <;> simp [Column.update, gt_iff_lt, hc]
    · intro _
      constructor <;> simp [Column.update, gt_iff_lt, hc]

/-- Witness for C10: a column whose advanced head stays on screen keeps
its characters and merely advances `y`. -/
theorem claim_C10_witness :
    ¬ (((5 : Nat) : Int) < (0 : Int) + ((1 : Nat) : Int) - (4 : Int)) ∧
    (Column.update ⟨0, 0, 1, 4, ['A']⟩ 5 0 (fun _ => 0)).chars = ['A'] ∧
    (Column.update ⟨0, 0, 1, 4, ['A']⟩ 5 0 (fun _ => 0)).y = 1 :=
  ⟨by decide,
   ((claim_C10 ⟨0, 0, 1, 4, ['A']⟩ 5 0 (fun _ => 0)).2 (by decide)).1,
   ((claim_C10 ⟨0, 0, 1, 4, ['A']⟩ 5 0 (fun _ => 0)).2 (by decide)).2⟩

/-- `gen_range(lo..hi)` lands in `[lo, hi)` for every seed when `lo < hi`. -/
theorem genRangeInt_mem (lo hi : Int) (s : Nat) (h : lo < hi) :
    lo ≤ genRangeInt lo hi s ∧ genRangeInt lo hi s < hi := by
  unfold genRangeInt
  have h1 : 0 ≤ (s : Int) % (hi - lo) := Int.emod_nonneg _ (by omega)
  have h2 : (s : Int) % (hi - lo) < hi - lo := Int.emod_lt_of_pos _ (by omega)
  omega

/-- Every character regenerated on wrap (`NUCLEOTIDES[rng.gen_range(0..4)]`)
is one of the first four nucleotides. -/
theorem regen_char_first4 (s : Nat) :
    NUCLEOTIDES.getD (genRangeNat 0 4 s) ' ' = 'A' ∨
    NUCLEOTIDES.getD (genRangeNat 0 4 s) ' ' = 'T' ∨
    NUCLEOTIDES.getD (genRangeNat 0 4 s) ' ' = 'C' ∨
    NUCLEOTIDES.getD (genRangeNat 0 4 s) ' ' = 'G' := by
  have h : genRangeNat 0 4 s = 0 ∨ genRangeNat 0 4 s = 1 ∨
      genRangeNat 0 4 s = 2 ∨ genRangeNat 0 4 s = 3 := by
    unfold genRangeNat
    omega
  rcases h with h | h | h | h <;> rw [h] <;> simp [NUCLEOTIDES]

/-- Claim C5 (confirmed): if `y - trail_len > height` held before `update`
(and `trail_len` is positive, which C6 guarantees for every constructed
column), then after the call the new `y` lies in `[-trail_len, 0)` and
every regenerated character is one of A, T, C, G — never U. -/
theorem claim_C5 (c : Column) (height sy : Nat) (schars : Nat → Nat)
    (hpre : (height : Int) < c.y - c.trail_len) (htl : 0 < c.trail_len) :
    (-c.trail_len ≤ (c.update height sy schars).y ∧ (c.update height sy schars).y < 0) ∧
    (∀ ch ∈ (c.update height sy schars).chars,
      ch = 'A' ∨ ch = 'T' ∨ ch = 'C' ∨ ch = 'G') := by
  have hc : (height : Int) < c.y + (c.speed : Int) - c.trail_len := by omega
  have hy := genRangeInt_mem (-c.trail_len) 0 sy (by omega)
  constructor
  · constructor <;> simp [Column.update, gt_iff_lt, hc, hy.1, hy.2]
  · intro ch hch
    simp only [Column.update, gt_iff_lt, if_pos hc, List.mem_map, List.mem_range] at hch
    obtain ⟨k, _, rfl⟩ := hch
    exact regen_char_first4 (schars k)

/-- Witness for C5: a column far below the screen wraps back into
`[-4, 0)` with all characters among A, T, C, G. -/
theorem claim_C5_witness :
    ((5 : Nat) : Int) < (20 : Int) - (4 : Int) ∧ (0 : Int) < (4 : Int) ∧
    (-(4 : Int) ≤ (Column.update ⟨0, 20, 1, 4, ['U']⟩ 5 0 (fun _ => 0)).y ∧
      (Column.update ⟨0, 20, 1, 4, ['U']⟩ 5 0 (fun _ => 0)).y < 0) :=
  ⟨by decide, by decide,
   (claim_C5 ⟨0, 20, 1, 4, ['U']⟩ 5 0 (fun _ => 0) (by decide) (by decide)).1⟩

/-- One trail-loop iteration of `draw` never panics and only writes rows in
`[0, height)` when `chars` has length `height`. -/
theorem drawCell_ok (c : Column) (height : Nat) (i : Int)
    (hlen : c.chars.length = height) :
    ∃ l, drawCell c height i = some l ∧
      ∀ op ∈ l, 0 ≤ op.row ∧ op.row < (height : Int) := by
  unfold drawCell
  by_cases h : c.y - i < 0 ∨ (height : Int) ≤ c.y - i
  · exact ⟨[], by rw [if_pos h], by simp⟩
  · push_neg at h
    obtain ⟨h1, h2⟩ := h
    have hlt : (c.y - i).toNat < c.chars.length := by omega
    refine ⟨[⟨c.x, c.y - i, c.chars[(c.y - i).toNat], some (trailColor i c.trail_len c.chars[(c.y - i).toNat])⟩], ?_, ?_⟩
    · rw [if_neg (by push_neg; exact ⟨h1, h2⟩), List.getElem?_eq_getElem hlt]
    · intro op hop
      simp only [List.mem_singleton] at hop
      subst hop
      exact ⟨h1, h2⟩

/-- The whole trail loop of `draw` never panics and only writes rows in
`[0, height)` when `chars` has length `height`. -/
theorem collectCells_ok (c : Column) (height : Nat)
    (hlen : c.chars.length = height) :
    ∀ is : List Int, ∃ l, collectCells c height is = some l ∧
      ∀ op ∈ l, 0 ≤ op.row ∧ op.row < (height : Int)
  | [] => ⟨[], rfl, by simp⟩
  | i :: is => by
    obtain ⟨l1, e1, b1⟩ := drawCell_ok c height i hlen
    obtain ⟨l2, e2, b2⟩ := collectCells_ok c height hlen is
    refine ⟨l1 ++ l2, ?_, ?_⟩
    · simp [collectCells, e1, e2]
    · intro op hop
      rcases List.mem_append.mp hop with h | h
      · exact b1 op h
      · exact b2 op h

/-- Claim C4 (confirmed): for every column whose `chars` vector has length
equal to the terminal height, `draw` succeeds (the indexing
`chars[row as usize]` never panics) and every write it emits — trail rows
and the erase cell alike — targets a row in `[0, height)`. -/
theorem claim_C4 (c : Column) (height : Nat) (hlen : c.chars.length = height) :
    ∃ ops, c.draw height = some ops ∧
      ∀ op ∈ ops, 0 ≤ op.row ∧ op.row < (height : Int) := by
  obtain ⟨l, e, b⟩ := collectCells_ok c height hlen (rangeIncl c.trail_len)
  by_cases herase : 0 ≤ c.y - c.trail_len - 1 ∧ c.y - c.trail_len - 1 < (height : Int)
  · refine ⟨l ++ [⟨c.x, c.y - c.trail_len - 1, ' ', none⟩], ?_, ?_⟩
    · simp [Column.draw, e, herase]
    · intro op hop
      rcases List.mem_append.mp hop with h | h
      · exact b op h
      · simp only [List.mem_singleton] at h
        subst h
        exact herase
  · refine ⟨l, ?_, b⟩
    simp only [Column.draw, e, Option.bind_eq_bind, Option.some_bind]
    rw [if_neg herase]
    rfl

/-- Witness for C4: a concrete column with a 3-character vector on a
3-row terminal draws without panicking, all writes on screen. -/
theorem claim_C4_witness :
    (Column.mk 0 2 1 4 ['A', 'T', 'C']).chars.length = 3 ∧
    (∃ ops, (Column.mk 0 2 1 4 ['A', 'T', 'C']).draw 3 = some ops ∧
      ∀ op ∈ ops, 0 ≤ op.row ∧ op.row < ((3 : Nat) : Int)) :=
  ⟨rfl, claim_C4 (Column.mk 0 2 1 4 ['A', 'T', 'C']) 3 rfl⟩

/-- Unfolding one column from the per-frame draw/update list. -/
theorem drawUpdates_succ (n : Nat) :
    drawUpdates (n + 1) = drawUpdates n ++ [FrameAction.draw n, FrameAction.update n] := by
  simp [drawUpdates, List.range_succ]

/-- The draw/update portion of a frame contains no flush. -/
theorem count_flush_drawUpdates (n : Nat) :
    (drawUpdates n).count FrameAction.flush = 0 := by
  induction n with
  | zero => rfl
  | succ m ih =>
    rw [drawUpdates_succ, List.count_append, ih]
    rfl

/-- Column `i < n` is drawn and then updated within the frame body. -/
theorem sublist_drawUpdates (i n : Nat) (h : i < n) :
    List.Sublist [FrameAction.draw i, FrameAction.update i] (drawUpdates n) := by
  induction n with
  | zero => omega
  | succ m ih =>
    rw [drawUpdates_succ]
    rcases Nat.lt_succ_iff_lt_or_eq.mp h with h' | h'
    · exact (ih h').trans (List.sublist_append_left _ _)
    · subst h'
      exact List.sublist_append_right _ _

/-- Claim C7 (confirmed): a frame that reads a key event with code `q` or
`Esc` breaks the loop immediately, performing no draw, update, or flush;
every other poll outcome (timeout, non-key event, non-quit key) draws then
updates every column in order and flushes exactly once. -/
theorem claim_C7 (n : Nat) :
    runFrame (PollOutcome.event (TermEvent.key (KeyCode.char 'q'))) n = (true, []) ∧
    runFrame (PollOutcome.event (TermEvent.key KeyCode.esc)) n = (true, []) ∧
    (∀ p : PollOutcome,
      (∀ k : KeyCode, p = PollOutcome.event (TermEvent.key k) → isQuitKey k = false) →
      (runFrame p n).1 = false ∧
      (runFrame p n).2.count FrameAction.flush = 1 ∧
      (∀ i : Nat, i < n →
        List.Sublist [FrameAction.draw i, FrameAction.update i] (runFrame p n).2)) := by
  have hbody : (frameBody n).count FrameAction.flush = 1 := by
    rw [frameBody, List.count_append, count_flush_drawUpdates]
    rfl
  have hsub : ∀ i : Nat, i < n →
      List.Sublist [FrameAction.draw i, FrameAction.update i] (frameBody n) := by
    intro i hi
    exact (sublist_drawUpdates i n hi).trans (List.sublist_append_left _ _)
  refine ⟨rfl, rfl, ?_⟩
  intro p hp
  match p with
  | PollOutcome.timeout => exact ⟨rfl, hbody, hsub⟩
  | PollOutcome.event TermEvent.other => exact ⟨rfl, hbody, hsub⟩
  | PollOutcome.event (TermEvent.key k) =>
    have hk := hp k rfl
    have hrun : runFrame (PollOutcome.event (TermEvent.key k)) n = (false, frameBody n) := by
      simp only [runFrame]
      rw [hk]
      rfl
    rw [hrun]
    exact ⟨rfl, hbody, hsub⟩

/-- Witness for C7: on a timeout frame with two columns, the loop does not
break, column 0 is drawn then updated, and there is one flush. -/
theorem claim_C7_witness :
    (runFrame PollOutcome.timeout 2).1 = false ∧
    (runFrame PollOutcome.timeout 2).2.count FrameAction.flush = 1 ∧
    List.Sublist [FrameAction.draw 0, FrameAction.update 0]
      (runFrame PollOutcome.timeout 2).2 :=
  ⟨((claim_C7 2).2.2 PollOutcome.timeout (fun k h => by cases h)).1,
   ((claim_C7 2).2.2 PollOutcome.timeout (fun k h => by cases h)).2.1,
   ((claim_C7 2).2.2 PollOutcome.timeout (fun k h => by cases h)).2.2 0 (by decide)⟩

end RDna
